import Mathlib

/-!
Verification of the rtk-for-opencode output-reduction pipeline.

Shallow embedding of the plugin's filters and orchestrator:
strings are Lean `String` (a structure over `List Char`), JS numbers are
`Int`/`Nat`/`ℚ` as appropriate, JS regular expressions are translated into
explicit character-list scanners with the same leftmost-match, greedy
semantics, and the orchestrator's try/catch is `Except`.
-/

namespace RTK

/-! ## Generic JS-style string helpers -/

/-- Word characters of a JS regex `\w` (no `u` flag): `[A-Za-z0-9_]`. -/
def isWordChar (c : Char) : Bool := c.isAlphanum || c = '_'

/-- Whitespace matched by JS regex `\s` / trimmed by `String.prototype.trim`
(restricted to the ASCII whitespace forms that occur in tool output). -/
def isSpaceJs (c : Char) : Bool :=
  c = ' ' || c = '\t' || c = '\n' || c = '\r' || c = '\x0b' || c = '\x0c'

/-- `pre` is a prefix of `l` (decidable scan). -/
def isPrefixList : List Char → List Char → Bool
  | [], _ => true
  | _ :: _, [] => false
  | a :: asl, b :: bs => a = b && isPrefixList asl bs

/-- `sub` occurs inside `l` (JS `String.prototype.includes`). -/
def hasSubList (sub : List Char) : List Char → Bool
  | [] => sub.isEmpty
  | c :: rest => isPrefixList sub (c :: rest) || hasSubList sub rest

/-- JS `a.includes(b)` on strings. -/
def jsIncludes (s sub : String) : Bool := hasSubList sub.data s.data

/-- JS `String.prototype.toLowerCase` (ASCII letters, which is all the
command tables use). -/
def jsToLower (s : String) : String := ⟨s.data.map Char.toLower⟩

/-- JS `s.slice(0, k)` for `k ≥ 0`. -/
def jsSlice (s : String) (k : Nat) : String := ⟨s.data.take k⟩

/-- JS `s.slice(k)` for `k ≥ 0`. -/
def jsSliceFrom (s : String) (k : Nat) : String := ⟨s.data.drop k⟩

/-- JS `s.trim()`. -/
def jsTrim (s : String) : String :=
  ⟨(((s.data.dropWhile isSpaceJs).reverse.dropWhile isSpaceJs).reverse)⟩

/-- Helper for `jsSplitNl`: split a character list at newline characters. -/
def splitNlAux (cur : List Char) : List Char → List (List Char)
  | [] => [cur.reverse]
  | c :: rest =>
    if c = '\n' then cur.reverse :: splitNlAux [] rest else splitNlAux (c :: cur) rest

/-- JS `s.split('\n')`. -/
def jsSplitNl (s : String) : List String := (splitNlAux [] s.data).map String.mk

/-- JS `String.prototype.startsWith`. -/
def jsStartsWith (s pre : String) : Bool := isPrefixList pre.data s.data

/-- Numeric value of a list of decimal digit characters. -/
def digitsVal (cs : List Char) : Nat :=
  cs.foldl (fun acc c => acc * 10 + (c.toNat - '0'.toNat)) 0

/-- JS `parseInt(s, 10) || 0`: parse a leading run of digits, `NaN` (no
leading digit) collapsing to `0`.  The captured groups this is applied to
are `\w+`/`\d+` matches, which have no sign or leading whitespace. -/
def parseIntOr0 (cs : List Char) : Nat := digitsVal (cs.takeWhile Char.isDigit)

/-- JS `Math.round` on an idealized (rational) number: half-away-from-zero
is half-up for JS, `round(x) = ⌊x + 1/2⌋`. -/
def jsRound (x : ℚ) : ℤ := ⌊x + 1/2⌋

/-! ## Truncation filter — `src/techniques/truncate.ts` -/

/-- `truncate(text, maxChars)` from `truncate.ts`: unchanged when within the
limit; bare `"..."` when `maxChars < 3`; otherwise the first `maxChars - 3`
characters followed by a newline and the literal omission marker. -/
def truncate (text : String) (maxChars : Int) : String :=
  if (text.length : Int) ≤ maxChars then text
  else if maxChars < 3 then "..."
  else
    let truncated := jsSlice text (maxChars - 3).toNat
    let omitted := text.length - (maxChars - 3).toNat
    truncated ++ "\n... [truncated: " ++ toString omitted ++ " chars omitted]"

/-! ## Metrics — `src/metrics.ts` -/

/-- `calculateSavings` from `metrics.ts`, JS doubles idealized as rationals:
`0` when `originalChars` is `0`, otherwise the percentage saved rounded to
two decimal places. -/
def calculateSavings (originalChars filteredChars : Nat) : ℚ :=
  if originalChars = 0 then 0
  else
    let savings := (((originalChars : ℚ) - filteredChars) / originalChars) * 100
    (jsRound (savings * 100) : ℚ) / 100

end RTK

namespace RTK

/-! ## Configuration — `src/config.ts` (the version that carries
`showUpdateEvery`, whose `mergeConfig` normalizes it) -/

inductive FilterLevel where
  | none
  | minimal
  | aggressive
deriving DecidableEq

structure TruncationConfig where
  enabled : Bool
  maxChars : ℚ
deriving DecidableEq

structure SmartTruncationConfig where
  enabled : Bool
  maxLines : ℚ
deriving DecidableEq

structure TechniquesConfig where
  ansiStripping : Bool
  truncation : TruncationConfig
  sourceCodeFiltering : FilterLevel
  smartTruncation : SmartTruncationConfig
  testOutputAggregation : Bool
  buildOutputFiltering : Bool
  gitCompaction : Bool
  searchResultGrouping : Bool
  linterAggregation : Bool
deriving DecidableEq

structure RtkConfig where
  enabled : Bool
  logSavings : Bool
  showUpdateEvery : ℚ
  techniques : TechniquesConfig
deriving DecidableEq

/-- `Partial` overrides: every leaf optional, mirroring the fields a JSON
override may or may not carry. -/
structure TruncationOverride where
  enabled : Option Bool := Option.none
  maxChars : Option ℚ := Option.none

structure SmartTruncationOverride where
  enabled : Option Bool := Option.none
  maxLines : Option ℚ := Option.none

structure TechniquesOverride where
  ansiStripping : Option Bool := Option.none
  truncation : Option TruncationOverride := Option.none
  sourceCodeFiltering : Option FilterLevel := Option.none
  smartTruncation : Option SmartTruncationOverride := Option.none
  testOutputAggregation : Option Bool := Option.none
  buildOutputFiltering : Option Bool := Option.none
  gitCompaction : Option Bool := Option.none
  searchResultGrouping : Option Bool := Option.none
  linterAggregation : Option Bool := Option.none

structure RtkOverride where
  enabled : Option Bool := Option.none
  logSavings : Option Bool := Option.none
  showUpdateEvery : Option ℚ := Option.none
  techniques : Option TechniquesOverride := Option.none

/-- `DEFAULT_CONFIG` from `config.ts`. -/
def DEFAULT_CONFIG : RtkConfig :=
  { enabled := true
    logSavings := true
    showUpdateEvery := 10
    techniques :=
      { ansiStripping := true
        truncation := { enabled := true, maxChars := 10000 }
        sourceCodeFiltering := FilterLevel.minimal
        smartTruncation := { enabled := true, maxLines := 200 }
        testOutputAggregation := true
        buildOutputFiltering := true
        gitCompaction := true
        searchResultGrouping := true
        linterAggregation := true } }

/-- `mergeConfig(base, override)` from `config.ts`.  A JS object spread
`{...base, ...override}` keeps an override field when present, else the base
field, which is `Option.getD`; the nested spreads for `truncation` and
`smartTruncation` deep-merge those two sub-objects.  `showUpdateEvery` is
normalized first: a non-integer (or absent) override falls back to the base
value, an integer override is clamped below by `0` (`Math.max(0, raw)`).
`Number.isInteger q` for a rational is `q.den = 1`. -/
def mergeConfig (base : RtkConfig) (override : RtkOverride) : RtkConfig :=
  let rawShowUpdateEvery := override.showUpdateEvery
  let showUpdateEvery :=
    match rawShowUpdateEvery with
    | Option.some q => if q.den = 1 then max 0 q else base.showUpdateEvery
    | Option.none => base.showUpdateEvery
  let ot := override.techniques
  { enabled := override.enabled.getD base.enabled
    logSavings := override.logSavings.getD base.logSavings
    showUpdateEvery := showUpdateEvery
    techniques :=
      { ansiStripping := (ot.bind (·.ansiStripping)).getD base.techniques.ansiStripping
        truncation :=
          { enabled := ((ot.bind (·.truncation)).bind (·.enabled)).getD
              base.techniques.truncation.enabled
            maxChars := ((ot.bind (·.truncation)).bind (·.maxChars)).getD
              base.techniques.truncation.maxChars }
        sourceCodeFiltering := (ot.bind (·.sourceCodeFiltering)).getD
          base.techniques.sourceCodeFiltering
        smartTruncation :=
          { enabled := ((ot.bind (·.smartTruncation)).bind (·.enabled)).getD
              base.techniques.smartTruncation.enabled
            maxLines := ((ot.bind (·.smartTruncation)).bind (·.maxLines)).getD
              base.techniques.smartTruncation.maxLines }
        testOutputAggregation := (ot.bind (·.testOutputAggregation)).getD
          base.techniques.testOutputAggregation
        buildOutputFiltering := (ot.bind (·.buildOutputFiltering)).getD
          base.techniques.buildOutputFiltering
        gitCompaction := (ot.bind (·.gitCompaction)).getD base.techniques.gitCompaction
        searchResultGrouping := (ot.bind (·.searchResultGrouping)).getD
          base.techniques.searchResultGrouping
        linterAggregation := (ot.bind (·.linterAggregation)).getD
          base.techniques.linterAggregation } }

end RTK

namespace RTK

/-! ## Claims C2, C7 — truncation filter -/

/-- C7: `truncate` returns the input unchanged when `len(text) ≤ maxChars`;
otherwise, when `maxChars < 3` the output is just the ellipsis marker, and
otherwise it is the first `maxChars - 3` characters followed by a newline
and `"... [truncated: <omitted> chars omitted]"` with
`omitted = len(text) - (maxChars - 3)`; in particular
`truncate "hello world" 10 = "hello w\n... [truncated: 4 chars omitted]"`. -/
theorem truncate_behavior (text : String) (maxChars : Int) :
    ((text.length : Int) ≤ maxChars → truncate text maxChars = text) ∧
    (maxChars < (text.length : Int) → maxChars < 3 → truncate text maxChars = "...") ∧
    (maxChars < (text.length : Int) → 3 ≤ maxChars →
      truncate text maxChars =
        jsSlice text (maxChars - 3).toNat ++ "\n... [truncated: " ++
          toString (text.length - (maxChars - 3).toNat) ++ " chars omitted]") ∧
    truncate "hello world" 10 = "hello w\n... [truncated: 4 chars omitted]" := by
  refine ⟨?_, ?_, ?_, by decide⟩
  · intro h
    rw [truncate, if_pos h]
  · intro h1 h2
    rw [truncate, if_neg (by omega), if_pos h2]
  · intro h1 h2
    rw [truncate, if_neg (by omega), if_neg (by omega)]

/-- Witness for `truncate_behavior`, exercising each guarded branch at a
concrete input. -/
theorem truncate_behavior_witness :
    truncate "hi" 10 = "hi" ∧
    truncate "hello" 2 = "..." ∧
    truncate "hello world" 10 =
      jsSlice "hello world" ((10 : Int) - 3).toNat ++ "\n... [truncated: " ++
        toString ("hello world".length - ((10 : Int) - 3).toNat) ++ " chars omitted]" :=
  ⟨(truncate_behavior "hi" 10).1 (by decide),
   (truncate_behavior "hello" 2).2.1 (by decide) (by decide),
   (truncate_behavior "hello world" 10).2.2.1 (by decide) (by decide)⟩

/-- C2 counterexample: at `t = "hello world"`, `n = 10` we have
`len(t) > n` but `len(truncate(t, n)) = 40 > max(n, 3) = 10` — the omission
marker alone is longer than the budget, so the claimed length bound is
false. -/
theorem truncate_bound_cex :
    (10 : Int) < ("hello world".length : Int) ∧
    ¬ (((truncate "hello world" 10).length : Int) ≤ max 10 3) := by decide

/-- C2 amended: when `len(text) ≤ maxChars` the text is unchanged; when it
exceeds the budget and `maxChars < 3` the output has length `3`; otherwise
the output length is `(maxChars - 3) + 32 + d` where `d` is the decimal
width of the omitted count — only the retained prefix (of length
`maxChars - 3`) obeys the budget, the full output exceeds `max(n, 3)` by
the 32 + d marker characters. -/
theorem truncate_length (text : String) (maxChars : Int) :
    ((text.length : Int) ≤ maxChars → truncate text maxChars = text) ∧
    (maxChars < (text.length : Int) → maxChars < 3 →
      (truncate text maxChars).length = 3) ∧
    (maxChars < (text.length : Int) → 3 ≤ maxChars →
      (truncate text maxChars).length =
        (maxChars - 3).toNat + 32 +
          (toString (text.length - (maxChars - 3).toNat)).length) := by
  refine ⟨?_, ?_, ?_⟩
  · intro h
    rw [truncate, if_pos h]
  · intro h1 h2
    rw [truncate, if_neg (by omega), if_pos h2]
    rfl
  · intro h1 h2
    rw [truncate, if_neg (by omega), if_neg (by omega)]
    rw [String.length_append, String.length_append, String.length_append]
    have htake : (jsSlice text (maxChars - 3).toNat).length =
        (maxChars - 3).toNat := by
      show (text.data.take (maxChars - 3).toNat).length = _
      rw [List.length_take]
      have : (maxChars - 3).toNat ≤ text.data.length := by
        have hl : text.length = text.data.length := rfl
        omega
      omega
    rw [htake]
    have h17 : ("\n... [truncated: " : String).length = 17 := rfl
    have h15 : (" chars omitted]" : String).length = 15 := rfl
    rw [h17, h15]
    omega

/-- Witness for `truncate_length` at a concrete over-budget input. -/
theorem truncate_length_witness :
    (truncate "hello world" 10).length =
      ((10 : Int) - 3).toNat + 32 +
        (toString ("hello world".length - ((10 : Int) - 3).toNat)).length :=
  (truncate_length "hello world" 10).2.2 (by decide) (by decide)

/-! ## Claim C9 — savings calculation -/

/-- C9: `calculateSavings(original, filtered)` is
`round(100 * (original - filtered) / original, 2)` for `original ≠ 0` and
`0` for `original = 0`; in particular `calculateSavings 100 33 = 67` and
`calculateSavings 0 0 = 0`. -/
theorem calculateSavings_spec (o f : Nat) :
    (o ≠ 0 →
      calculateSavings o f = (jsRound ((100 * ((o : ℚ) - f) / o) * 100) : ℚ) / 100) ∧
    (o = 0 → calculateSavings o f = 0) ∧
    calculateSavings 100 33 = 67 ∧ calculateSavings 0 0 = 0 := by
  refine ⟨?_, ?_, ?_, by simp [calculateSavings]⟩
  · intro h
    simp only [calculateSavings, if_neg h]
    have harg : (((o : ℚ) - f) / o) * 100 * 100 = (100 * ((o : ℚ) - f) / o) * 100 := by
      ring
    rw [harg]
  · intro h
    simp [calculateSavings, h]
  · have hr : jsRound 6700 = 6700 := by
      rw [jsRound]
      norm_num [Int.floor_eq_iff]
    simp only [calculateSavings]
    norm_num
    rw [hr]
    norm_num

/-- Witness for `calculateSavings_spec`, discharging each hypothesis at a
concrete pair of counts. -/
theorem calculateSavings_spec_witness :
    calculateSavings 100 33 =
      (jsRound ((100 * (((100 : Nat) : ℚ) - ((33 : Nat) : ℚ)) / ((100 : Nat) : ℚ)) * 100) : ℚ) / 100 ∧
    calculateSavings 0 7 = 0 :=
  ⟨(calculateSavings_spec 100 33).1 (by norm_num),
   (calculateSavings_spec 0 7).2.1 rfl⟩

/-! ## Claim C8 — configuration merging -/

/-- C8: `mergeConfig` deep-merges the `truncation` and `smartTruncation`
sub-objects leaf-by-leaf (an override leaf wins when present, otherwise the
base leaf survives), so overriding only `techniques.truncation.maxChars` to
`5000` keeps `enabled = true` while setting `maxChars = 5000`; and it
normalizes `showUpdateEvery`: a negative integer override becomes `0` and a
non-integer override is replaced by the base configuration's value. -/
theorem mergeConfig_spec (base : RtkConfig) (t : TruncationOverride)
    (s : SmartTruncationOverride) (q : ℚ) :
    ((mergeConfig base
        { techniques := Option.some
            { truncation := Option.some t, smartTruncation := Option.some s } }).techniques.truncation =
      { enabled := t.enabled.getD base.techniques.truncation.enabled,
        maxChars := t.maxChars.getD base.techniques.truncation.maxChars }) ∧
    ((mergeConfig base
        { techniques := Option.some
            { truncation := Option.some t, smartTruncation := Option.some s } }).techniques.smartTruncation =
      { enabled := s.enabled.getD base.techniques.smartTruncation.enabled,
        maxLines := s.maxLines.getD base.techniques.smartTruncation.maxLines }) ∧
    (q.den = 1 → q < 0 →
      (mergeConfig base { showUpdateEvery := Option.some q }).showUpdateEvery = 0) ∧
    (q.den ≠ 1 →
      (mergeConfig base { showUpdateEvery := Option.some q }).showUpdateEvery =
        base.showUpdateEvery) ∧
    ((mergeConfig DEFAULT_CONFIG
        { techniques := Option.some
            { truncation := Option.some { maxChars := Option.some 5000 } } }).techniques.truncation.enabled = true ∧
     (mergeConfig DEFAULT_CONFIG
        { techniques := Option.some
            { truncation := Option.some { maxChars := Option.some 5000 } } }).techniques.truncation.maxChars = 5000) := by
  refine ⟨rfl, rfl, ?_, ?_, rfl, rfl⟩
  · intro h1 h2
    simp only [mergeConfig, h1, if_pos]
    exact max_eq_left (le_of_lt h2)
  · intro h
    simp [mergeConfig, h]

/-- Witness for `mergeConfig_spec`, discharging the normalization
hypotheses at concrete override values. -/
theorem mergeConfig_spec_witness :
    (mergeConfig DEFAULT_CONFIG { showUpdateEvery := Option.some (-5 : ℚ) }).showUpdateEvery = 0 ∧
    (mergeConfig DEFAULT_CONFIG { showUpdateEvery := Option.some ((1 : ℚ)/2) }).showUpdateEvery =
      DEFAULT_CONFIG.showUpdateEvery :=
  ⟨(mergeConfig_spec DEFAULT_CONFIG {} {} (-5)).2.2.1 (by norm_num) (by norm_num),
   (mergeConfig_spec DEFAULT_CONFIG {} {} ((1 : ℚ)/2)).2.2.2.1 (by norm_num)⟩

end RTK

namespace RTK

/-! ## ANSI filter — `stripAnsi` / `stripAnsiFast` (source.ts tail / ansi module) -/

/-- Characters of the `[0-9;]` class used by the CSI and numeric-OSC
patterns. -/
def isCsiParam (c : Char) : Bool := c.isDigit || c = ';'

/-- Characters of the `[^\x07\x1b]` class used by the general OSC
pattern. -/
def isOscBody (c : Char) : Bool := !(c = '\x07') && !(c = '\x1b')

/-- Length of a match of `/\x1b\[[0-9;]*[a-zA-Z]/` at the head of `cs`,
if any.  Greedy `[0-9;]*` is exact here because the trailing letter class
is disjoint from the parameter class. -/
def csiMatchLen (cs : List Char) : Option Nat :=
  match cs with
  | c1 :: c2 :: rest =>
    if c1 = '\x1b' ∧ c2 = '[' then
      match rest.dropWhile isCsiParam with
      | c :: _ =>
        if c.isAlpha then some (2 + (rest.takeWhile isCsiParam).length + 1) else none
      | [] => none
    else none
  | _ => none

/-- Length of a match of `/\x1b\][0-9;]*(?:\x07|\x1b\\)/` at the head of
`cs`, if any. -/
def oscNumMatchLen (cs : List Char) : Option Nat :=
  match cs with
  | c1 :: c2 :: rest =>
    if c1 = '\x1b' ∧ c2 = ']' then
      match rest.dropWhile isCsiParam with
      | '\x07' :: _ => some (2 + (rest.takeWhile isCsiParam).length + 1)
      | '\x1b' :: '\\' :: _ => some (2 + (rest.takeWhile isCsiParam).length + 2)
      | _ => none
    else none
  | _ => none

/-- Length of a match of `/\x1b\][^\x07\x1b]*(?:\x07|\x1b\\)/` at the head
of `cs`, if any. -/
def oscAnyMatchLen (cs : List Char) : Option Nat :=
  match cs with
  | c1 :: c2 :: rest =>
    if c1 = '\x1b' ∧ c2 = ']' then
      match rest.dropWhile isOscBody with
      | '\x07' :: _ => some (2 + (rest.takeWhile isOscBody).length + 1)
      | '\x1b' :: '\\' :: _ => some (2 + (rest.takeWhile isOscBody).length + 2)
      | _ => none
    else none
  | _ => none

/-- One global pass of `text.replace(pattern, '')`: scan left to right,
delete each match, continue scanning right after it (JS `/g` semantics:
the shortened text is not rescanned).  Structural recursion on a fuel
initialized to the list length; every match consumes at least one
character, so the fuel suffices. -/
def replaceAllFuel (m : List Char → Option Nat) : Nat → List Char → List Char
  | _, [] => []
  | 0, c :: rest => c :: rest
  | fuel + 1, c :: rest =>
    match m (c :: rest) with
    | some (k + 1) => replaceAllFuel m fuel (rest.drop k)
    | _ => c :: replaceAllFuel m fuel rest

/-- `l.replace(pattern, '')` with matcher `m`. -/
def replaceAll (m : List Char → Option Nat) (l : List Char) : List Char :=
  replaceAllFuel m l.length l

/-- `stripAnsi(text)`: the three sequential global replaces of the source,
CSI first, then numeric OSC, then general OSC. -/
def stripAnsi (text : String) : String :=
  ⟨replaceAll oscAnyMatchLen (replaceAll oscNumMatchLen (replaceAll csiMatchLen text.data))⟩

/-- `stripAnsiFast(text)`: return the text untouched when it contains no
escape character, else `stripAnsi`. -/
def stripAnsiFast (text : String) : String :=
  if !(jsIncludes text "\x1b") then text else stripAnsi text

theorem csiMatchLen_not_esc (c : Char) (cs : List Char) (h : ¬ c = '\x1b') :
    csiMatchLen (c :: cs) = Option.none := by
  cases cs with
  | nil => rfl
  | cons c2 rest => simp [csiMatchLen, h]

theorem oscNumMatchLen_not_esc (c : Char) (cs : List Char) (h : ¬ c = '\x1b') :
    oscNumMatchLen (c :: cs) = Option.none := by
  cases cs with
  | nil => rfl
  | cons c2 rest => simp [oscNumMatchLen, h]

theorem oscAnyMatchLen_not_esc (c : Char) (cs : List Char) (h : ¬ c = '\x1b') :
    oscAnyMatchLen (c :: cs) = Option.none := by
  cases cs with
  | nil => rfl
  | cons c2 rest => simp [oscAnyMatchLen, h]

/-- A replace pass whose matcher only fires on a leading escape character
is the identity on escape-free text. -/
theorem replaceAllFuel_escFree (m : List Char → Option Nat)
    (hm : ∀ c cs, ¬ c = '\x1b' → m (c :: cs) = Option.none)
    (fuel : Nat) (l : List Char) (hl : ∀ c ∈ l, c ≠ '\x1b') :
    replaceAllFuel m fuel l = l := by
  induction fuel generalizing l with
  | zero => cases l <;> rfl
  | succ n ih =>
    cases l with
    | nil => rfl
    | cons c rest =>
      have hc : ¬ c = '\x1b' := hl c (List.mem_cons_self c rest)
      rw [replaceAllFuel, hm c rest hc]
      rw [ih rest (fun x hx => hl x (List.mem_cons_of_mem c hx))]

theorem replaceAll_escFree (m : List Char → Option Nat)
    (hm : ∀ c cs, ¬ c = '\x1b' → m (c :: cs) = Option.none)
    (l : List Char) (hl : ∀ c ∈ l, c ≠ '\x1b') :
    replaceAll m l = l :=
  replaceAllFuel_escFree m hm l.length l hl

/-- A single-character needle is not found exactly when it is not an
element. -/
theorem hasSubList_single_false (a : Char) (l : List Char)
    (h : hasSubList [a] l = false) : a ∉ l := by
  induction l with
  | nil => simp
  | cons b rest ih =>
    rw [hasSubList, Bool.or_eq_false_iff] at h
    simp only [List.mem_cons, not_or]
    refine ⟨?_, ih h.2⟩
    intro heq
    subst heq
    simp [isPrefixList] at h

/-- `jsIncludes s "\x1b" = false` says every character of `s` differs from
the escape character. -/
theorem jsIncludes_esc_false (s : String) (h : jsIncludes s "\x1b" = false) :
    ∀ c ∈ s.data, c ≠ '\x1b' := by
  intro c hc heq
  exact hasSubList_single_false '\x1b' s.data h (heq ▸ hc)

theorem stripAnsi_escFree_id (t : String) (h : jsIncludes t "\x1b" = false) :
    stripAnsi t = t := by
  have hl := jsIncludes_esc_false t h
  rw [stripAnsi]
  rw [replaceAll_escFree csiMatchLen csiMatchLen_not_esc t.data hl]
  rw [replaceAll_escFree oscNumMatchLen oscNumMatchLen_not_esc t.data hl]
  rw [replaceAll_escFree oscAnyMatchLen oscAnyMatchLen_not_esc t.data hl]

/-! ## Claim C3 — ANSI filter -/

/-- C3 counterexample: stripping is not idempotent — on
`"\x1b\x1b[m[0m"` the first CSI pass removes the inner `ESC [ m`, gluing
the surviving escape to `"[0m"` into a fresh CSI sequence that only a
second application removes; and a bare escape character (one introducing
no CSI/OSC sequence) survives stripping, so the result can still contain
`ESC`. -/
theorem stripAnsi_cex :
    stripAnsi (stripAnsi "\x1b\x1b[m[0m") ≠ stripAnsi "\x1b\x1b[m[0m" ∧
    jsIncludes (stripAnsi "\x1b") "\x1b" = true := by decide

/-- C3 amended: `strip` is idempotent on every input whose output is
escape-free — in particular it is the identity on escape-free input, and
the fast path `stripAnsiFast` agrees with `stripAnsi` everywhere — but a
result that retains an escape character may shrink again under a second
application, and escape characters can survive in the result. -/
theorem stripAnsi_amended (t : String) :
    (jsIncludes (stripAnsi t) "\x1b" = false → stripAnsi (stripAnsi t) = stripAnsi t) ∧
    (jsIncludes t "\x1b" = false → stripAnsi t = t) ∧
    stripAnsiFast t = stripAnsi t := by
  refine ⟨?_, stripAnsi_escFree_id t, ?_⟩
  · intro h
    exact stripAnsi_escFree_id (stripAnsi t) h
  · rw [stripAnsiFast]
    by_cases h : jsIncludes t "\x1b" = false
    · rw [h]
      simp [stripAnsi_escFree_id t h]
    · simp only [Bool.not_eq_false] at h
      rw [h]
      simp

/-- Witness for `stripAnsi_amended` at a concrete escape-free input. -/
theorem stripAnsi_amended_witness :
    stripAnsi (stripAnsi "plain text") = stripAnsi "plain text" ∧
    stripAnsi "plain text" = "plain text" :=
  ⟨(stripAnsi_amended "plain text").1 (by decide),
   (stripAnsi_amended "plain text").2.1 (by decide)⟩

end RTK

namespace RTK

/-! ## Git status compaction — `compactStatus` (git module) -/

structure StatusStats where
  staged : Nat
  modified : Nat
  untracked : Nat
  conflicts : Nat
  stagedFiles : List String
  modifiedFiles : List String
  untrackedFiles : List String
deriving DecidableEq

def initialStatusStats : StatusStats :=
  { staged := 0, modified := 0, untracked := 0, conflicts := 0,
    stagedFiles := [], modifiedFiles := [], untrackedFiles := [] }

/-- Body of `compactStatus`'s scanning loop for one line at index `i`
(`continue` branches return the state unchanged).  `!line || line.length < 3`
collapses to the length test since an empty line has length `0`.  A line
surviving the guards contributes `status = line.slice(0, 2)` and
`filename = line.slice(3)`; `??` is the untracked case, otherwise the
index column decides staged (`M/A/D/R/C`) and conflicts (`U`) and the
worktree column decides modified (`M/D`). -/
def statusLineStep (i : Nat) (line : String) (acc : StatusStats × String) :
    StatusStats × String :=
  let (stats, branchName) := acc
  if i = 0 ∧ jsStartsWith line "On branch " then
    (stats, jsSliceFrom line 10)
  else if line.length < 3 then
    (stats, branchName)
  else
    let status := line.data.take 2
    let filename := jsSliceFrom line 3
    if status = ['?', '?'] then
      ({ stats with untracked := stats.untracked + 1,
                    untrackedFiles := stats.untrackedFiles ++ [filename] }, branchName)
    else
      let indexStatus := status.headD ' '
      let worktreeStatus := (status.drop 1).headD ' '
      let stats1 :=
        if ['M', 'A', 'D', 'R', 'C'].contains indexStatus then
          { stats with staged := stats.staged + 1,
                       stagedFiles := stats.stagedFiles ++ [filename] }
        else stats
      let stats2 :=
        if indexStatus = 'U' then { stats1 with conflicts := stats1.conflicts + 1 }
        else stats1
      let stats3 :=
        if ['M', 'D'].contains worktreeStatus then
          { stats2 with modified := stats2.modified + 1,
                        modifiedFiles := stats2.modifiedFiles ++ [filename] }
        else stats2
      (stats3, branchName)

/-- The `for (let i = 0; ...)` loop of `compactStatus`. -/
def statusScanAux : Nat → List String → StatusStats × String → StatusStats × String
  | _, [], acc => acc
  | i, line :: rest, acc => statusScanAux (i + 1) rest (statusLineStep i line acc)

/-- Render one capped file-list section of the status summary. -/
def statusSection (header : String) (count : Nat) (files : List String)
    (cap : Nat) : List String :=
  if count > 0 then
    [header ++ toString count ++ " files"]
      ++ (files.take cap).map (fun f => "  " ++ f)
      ++ (if files.length > cap then
            ["  ... +" ++ toString (files.length - cap) ++ " more"]
          else [])
  else []

/-- `compactStatus(output)` from the git module: empty input is a clean
tree; otherwise scan the lines into buckets and render branch, staged
(cap 5), modified (cap 5), untracked (cap 3) and conflict sections,
falling back to "Clean working tree" when nothing rendered. -/
def compactStatus (output : String) : String :=
  let lines := jsSplitNl output
  if lines.length = 0 ∨ (lines.length = 1 ∧ jsTrim (lines.headD "") = "") then
    "Clean working tree"
  else
    let scanned := statusScanAux 0 lines (initialStatusStats, "")
    let stats := scanned.1
    let branchName := scanned.2
    let result :=
      (if branchName ≠ "" then ["📌 " ++ branchName] else [])
        ++ statusSection "✅ Staged: " stats.staged stats.stagedFiles 5
        ++ statusSection "📝 Modified: " stats.modified stats.modifiedFiles 5
        ++ statusSection "❓ Untracked: " stats.untracked stats.untrackedFiles 3
        ++ (if stats.conflicts > 0 then
              ["⚠️  Conflicts: " ++ toString stats.conflicts ++ " files"]
            else [])
    let joined := String.intercalate "\n" result
    if joined = "" then "Clean working tree" else joined

/-! ## Claim C5 — git status classification -/

/-- C5 counterexample: the porcelain code `AU` (added in index,
unmerged/U in the worktree column) has `U` in one of its columns, so the
claim classifies it as a conflict; `compactStatus` only tests the index
column for `U`, counts the line as staged, and renders no conflict
section. -/
theorem compactStatus_conflict_cex :
    (statusScanAux 0 ["AU f.txt"] (initialStatusStats, "")).1.conflicts = 0 ∧
    (statusScanAux 0 ["AU f.txt"] (initialStatusStats, "")).1.staged = 1 ∧
    compactStatus "AU f.txt" = "✅ Staged: 1 files\n  f.txt" := by decide

/-- C5 amended: for a porcelain line `XY␣filename` (scanned at a line
index other than 0, where a leading "On branch " header would be consumed
instead), the buckets each grow according to their own condition: untracked
exactly when the code is `??`; otherwise staged when the index column is
one of `M/A/D/R/C`, conflict when the index column (only) is `U`, and
modified when the worktree column is `M` or `D` — one line can fall into
several of the latter buckets at once. -/
theorem compactStatus_classification (X Y : Char) (rest : String) (i : Nat)
    (st : StatusStats) (br : String) (hi : i ≠ 0) :
    (statusLineStep i ⟨X :: Y :: ' ' :: rest.data⟩ (st, br)).2 = br ∧
    (statusLineStep i ⟨X :: Y :: ' ' :: rest.data⟩ (st, br)).1.untracked =
      st.untracked + (if X = '?' ∧ Y = '?' then 1 else 0) ∧
    (statusLineStep i ⟨X :: Y :: ' ' :: rest.data⟩ (st, br)).1.staged =
      st.staged +
        (if ¬(X = '?' ∧ Y = '?') ∧ ['M', 'A', 'D', 'R', 'C'].contains X then 1 else 0) ∧
    (statusLineStep i ⟨X :: Y :: ' ' :: rest.data⟩ (st, br)).1.conflicts =
      st.conflicts + (if ¬(X = '?' ∧ Y = '?') ∧ X = 'U' then 1 else 0) ∧
    (statusLineStep i ⟨X :: Y :: ' ' :: rest.data⟩ (st, br)).1.modified =
      st.modified +
        (if ¬(X = '?' ∧ Y = '?') ∧ ['M', 'D'].contains Y then 1 else 0) := by
  have hlen : ¬ ((String.mk (X :: Y :: ' ' :: rest.data)).length < 3) := by
    show ¬ ((X :: Y :: ' ' :: rest.data).length < 3)
    simp only [List.length_cons]
    omega
  have htake : (X :: Y :: ' ' :: rest.data).take 2 = [X, Y] := rfl
  simp only [statusLineStep]
  rw [if_neg (by simp [hi]), if_neg hlen, htake]
  by_cases hq : X = '?' ∧ Y = '?'
  · obtain ⟨hx, hy⟩ := hq
    subst hx
    subst hy
    simp
  · rw [if_neg (by simpa using hq)]
    simp only [List.headD, List.drop, List.head?]
    have hc1 : (['M', 'A', 'D', 'R', 'C'].contains X = true) ↔
        (X = 'M' ∨ X = 'A' ∨ X = 'D' ∨ X = 'R' ∨ X = 'C') := by simp
    have hc3 : (['M', 'D'].contains Y = true) ↔ (Y = 'M' ∨ Y = 'D') := by simp
    by_cases h1 : X = 'M' ∨ X = 'A' ∨ X = 'D' ∨ X = 'R' ∨ X = 'C'
      <;> by_cases h2 : X = 'U'
      <;> by_cases h3 : Y = 'M' ∨ Y = 'D'
      <;> simp [hc1, hc3, h1, h2, h3, hq]

/-- Witness for `compactStatus_classification` at the concrete conflicted
line `UM f` (index column `U`, worktree column `M`): it counts as a
conflict and as modified, not as staged or untracked. -/
theorem compactStatus_classification_witness :
    (statusLineStep 1 ⟨'U' :: 'M' :: ' ' :: "f".data⟩ (initialStatusStats, "")).2 = "" ∧
    (statusLineStep 1 ⟨'U' :: 'M' :: ' ' :: "f".data⟩ (initialStatusStats, "")).1.untracked =
      initialStatusStats.untracked + (if 'U' = '?' ∧ 'M' = '?' then 1 else 0) ∧
    (statusLineStep 1 ⟨'U' :: 'M' :: ' ' :: "f".data⟩ (initialStatusStats, "")).1.staged =
      initialStatusStats.staged +
        (if ¬('U' = '?' ∧ 'M' = '?') ∧ ['M', 'A', 'D', 'R', 'C'].contains 'U' then 1 else 0) ∧
    (statusLineStep 1 ⟨'U' :: 'M' :: ' ' :: "f".data⟩ (initialStatusStats, "")).1.conflicts =
      initialStatusStats.conflicts + (if ¬('U' = '?' ∧ 'M' = '?') ∧ 'U' = 'U' then 1 else 0) ∧
    (statusLineStep 1 ⟨'U' :: 'M' :: ' ' :: "f".data⟩ (initialStatusStats, "")).1.modified =
      initialStatusStats.modified +
        (if ¬('U' = '?' ∧ 'M' = '?') ∧ ['M', 'D'].contains 'M' then 1 else 0) :=
  compactStatus_classification 'U' 'M' "f" 1 initialStatusStats "" (by decide)

end RTK

namespace RTK

/-! ## Pipeline orchestrator — `plugin.ts` `tool.execute.after`

The handler body is one `try { ... } catch { log }` around a fixed sequence
of guarded filter applications.  Each application has the shape

    if (config.techniques.<flag>) {
      const filtered = <filter>(result, ...);
      if (filtered !== null && filtered !== result) {
        result = filtered;
        technique = technique ? technique + ',' + label : label;
      }
    }

so a stage is modelled by its enable flag, its technique label, and a
function from the current text to an outcome: a thrown exception, `null`
(not applicable / guard not taken), or a replacement text.  The handler
assigns `output.output` and records a metric only after every stage ran
and only when the final text differs from the original. -/

inductive StageOutcome where
  | thrown (msg : String)
  | inapplicable
  | ok (text : String)

structure Stage where
  enabled : Bool
  label : String
  run : String → StageOutcome

/-- `technique = technique ? technique + ',' + label : label`. -/
def appendTechnique (technique : Option String) (label : String) : Option String :=
  match technique with
  | Option.some s => Option.some (s ++ "," ++ label)
  | Option.none => Option.some label

/-- Run the stage sequence on the current text, accumulating the technique
label chain; a thrown exception aborts with `Except.error` (the JS
exception propagating out of the stage sequence to the handler's `catch`). -/
def applyStages : List Stage → String → Option String →
    Except String (String × Option String)
  | [], text, technique => Except.ok (text, technique)
  | s :: rest, text, technique =>
    if s.enabled then
      match s.run text with
      | StageOutcome.thrown msg => Except.error msg
      | StageOutcome.inapplicable => applyStages rest text technique
      | StageOutcome.ok t =>
        if t ≠ text then applyStages rest t (appendTechnique technique s.label)
        else applyStages rest text technique
    else applyStages rest text technique

/-- The fields of the `MetricRecord` built by `recordAndLog` that do not
depend on the wall clock (`timestamp` omitted). -/
structure PipelineMetricRecord where
  sessionId : String
  tool : String
  technique : String
  originalChars : Nat
  filteredChars : Nat
  savingsPercent : ℚ
deriving DecidableEq

/-- Observable outcome of one `tool.execute.after` invocation: the final
value of `output.output`, and the metric record pushed/appended (if any). -/
structure HandlerResult where
  output : String
  record : Option PipelineMetricRecord
deriving DecidableEq

/-- The `tool.execute.after` handler of `plugin.ts` (stage bodies
abstracted as `stages`): run every stage inside the `try`; on an exception
the `catch` only logs, leaving `output.output` holding the original text
and recording nothing; on normal completion, if the result differs from
the original and a session id resolves, `output.output` is set and a
record is built (the savings expression in `recordAndLog` is the same
formula as `calculateSavings`). -/
def toolExecuteAfter (stages : List Stage) (tool : String)
    (sessionID : Option String) (original : String) : HandlerResult :=
  match applyStages stages original Option.none with
  | Except.error _ => { output := original, record := Option.none }
  | Except.ok (result, technique) =>
    if result ≠ original then
      match sessionID with
      | Option.none => { output := original, record := Option.none }
      | Option.some sid =>
        { output := result
          record := Option.some
            { sessionId := sid
              tool := tool
              technique := technique.getD "unknown"
              originalChars := original.length
              filteredChars := result.length
              savingsPercent := calculateSavings original.length result.length } }
    else { output := original, record := Option.none }

/-- Splitting the stage list around a stage: the tail only runs when the
prefix completed normally. -/
theorem applyStages_append (xs ys : List Stage) (text : String)
    (technique : Option String) :
    applyStages (xs ++ ys) text technique =
      match applyStages xs text technique with
      | Except.error e => Except.error e
      | Except.ok (t, te) => applyStages ys t te := by
  induction xs generalizing text technique with
  | nil => rfl
  | cons s rest ih =>
    rw [List.cons_append, applyStages, applyStages]
    by_cases he : s.enabled
    · rw [if_pos he, if_pos he]
      cases s.run text with
      | thrown msg => rfl
      | inapplicable => exact ih text technique
      | ok t =>
        dsimp only
        by_cases ht : t ≠ text
        · rw [if_pos ht, if_pos ht]
          exact ih t (appendTechnique technique s.label)
        · rw [if_neg ht, if_neg ht]
          exact ih text technique
    · rw [if_neg he, if_neg he]
      exact ih text technique

/-- If the pipeline reaches an enabled stage that throws, the whole stage
sequence aborts with that exception. -/
theorem applyStages_fault (pre post : List Stage) (s : Stage)
    (original t : String) (tech : Option String) (msg : String)
    (hreach : applyStages pre original Option.none = Except.ok (t, tech))
    (henabled : s.enabled = true)
    (hthrow : s.run t = StageOutcome.thrown msg) :
    applyStages (pre ++ s :: post) original Option.none = Except.error msg := by
  rw [applyStages_append, hreach]
  dsimp only
  rw [applyStages, if_pos henabled, hthrow]

/-! ## Claim C1 — fault containment at the orchestrator boundary -/

/-- C1: if, while the orchestrator is processing an invocation, any filter
stage throws (here: the pipeline reaches enabled stage `s` with text `t`
and `s.run t` throws), the handler's catch leaves `output.output` holding
the original, pre-pipeline text — never a partially transformed result —
and no metric record is emitted. -/
theorem orchestrator_fault_preserves_original (pre post : List Stage)
    (s : Stage) (tool : String) (sessionID : Option String)
    (original t : String) (tech : Option String) (msg : String)
    (hreach : applyStages pre original Option.none = Except.ok (t, tech))
    (henabled : s.enabled = true)
    (hthrow : s.run t = StageOutcome.thrown msg) :
    toolExecuteAfter (pre ++ s :: post) tool sessionID original =
      { output := original, record := Option.none } := by
  rw [toolExecuteAfter, applyStages_fault pre post s original t tech msg hreach henabled hthrow]

/-- A stage that always throws (a filter with a transformation fault). -/
def faultStage : Stage :=
  { enabled := true, label := "fault", run := fun _ => StageOutcome.thrown "boom" }

/-- A stage that always changes the text by appending `!`. -/
def exclaimStage : Stage :=
  { enabled := true, label := "exclaim", run := fun t => StageOutcome.ok (t ++ "!") }

/-- Witness for `orchestrator_fault_preserves_original`: a concrete
pipeline whose first stage throws on `"abc"`. -/
theorem orchestrator_fault_preserves_original_witness :
    toolExecuteAfter [faultStage, exclaimStage] "bash" (Option.some "s1") "abc" =
      { output := "abc", record := Option.none } :=
  orchestrator_fault_preserves_original [] [exclaimStage] faultStage "bash"
    (Option.some "s1") "abc" "abc" Option.none "boom" rfl rfl rfl

/-! ## Claim C6 — no continuation after a transformation fault -/

/-- C6 counterexample: with the faulting stage followed by an enabled
stage that maps `"abc"` to `"abc!"`, continuing the pipeline on the
pre-fault text would produce `"abc!"` (and a record); the handler instead
catches at its outer boundary and returns the original `"abc"` with no
record — the remaining stage never ran. -/
theorem pipeline_no_continuation_cex :
    toolExecuteAfter [faultStage, exclaimStage] "bash" (Option.some "s1") "abc" =
      { output := "abc", record := Option.none } ∧
    applyStages [exclaimStage] "abc" Option.none =
      Except.ok ("abc!", Option.some "exclaim") ∧
    ("abc!" : String) ≠ "abc" := by
  refine ⟨?_, rfl, by decide⟩
  rfl

/-- C6 amended: when a filter stage throws, the exception is caught at the
single orchestrator boundary around the whole stage sequence; the
remaining stages are skipped — the outcome is the same whatever stages
follow the faulting one — the caller keeps the original text, and no
record is emitted.  (The spec's "pipeline continues to the next stage
using the pre-fault text" does not hold: there is no per-stage catch.) -/
theorem orchestrator_fault_skips_rest (pre post post' : List Stage)
    (s : Stage) (tool : String) (sessionID : Option String)
    (original t : String) (tech : Option String) (msg : String)
    (hreach : applyStages pre original Option.none = Except.ok (t, tech))
    (henabled : s.enabled = true)
    (hthrow : s.run t = StageOutcome.thrown msg) :
    toolExecuteAfter (pre ++ s :: post) tool sessionID original =
      { output := original, record := Option.none } ∧
    toolExecuteAfter (pre ++ s :: post) tool sessionID original =
      toolExecuteAfter (pre ++ s :: post') tool sessionID original := by
  constructor
  · rw [toolExecuteAfter,
      applyStages_fault pre post s original t tech msg hreach henabled hthrow]
  · rw [toolExecuteAfter,
      applyStages_fault pre post s original t tech msg hreach henabled hthrow,
      toolExecuteAfter,
      applyStages_fault pre post' s original t tech msg hreach henabled hthrow]

/-- Witness for `orchestrator_fault_skips_rest` at a concrete pipeline:
dropping the stage after the fault does not change the outcome. -/
theorem orchestrator_fault_skips_rest_witness :
    toolExecuteAfter [faultStage, exclaimStage] "read" (Option.some "s2") "xy" =
      { output := "xy", record := Option.none } ∧
    toolExecuteAfter [faultStage, exclaimStage] "read" (Option.some "s2") "xy" =
      toolExecuteAfter [faultStage] "read" (Option.some "s2") "xy" :=
  orchestrator_fault_skips_rest [] [exclaimStage] [] faultStage "read"
    (Option.some "s2") "xy" "xy" Option.none "boom" rfl rfl rfl

end RTK

namespace RTK

/-! ## Test output aggregation — `src/techniques/test-output.ts`

Each regular expression of the source is translated into an explicit
scanner on `List Char`.  For these patterns greedy repetition never needs
backtracking (every repeated class is disjoint from the character that
must follow it), so maximal munch is exact; `output.match(re)` is the
leftmost match, i.e. the first position at which the per-position matcher
succeeds. -/

def TEST_COMMANDS : List String :=
  ["test", "jest", "vitest", "pytest", "cargo test", "bun test", "go test",
   "mocha", "ava", "tap"]

/-- `isTestCommand`: the lower-cased command contains one of the
(lower-cased) test-tool names. -/
def isTestCommand (command : String) : Bool :=
  TEST_COMMANDS.any (fun tc => jsIncludes (jsToLower command) (jsToLower tc))

/-- Match a literal (case-sensitive) at the head, returning the rest. -/
def litAt (lit : List Char) (cs : List Char) : Option (List Char) :=
  match lit, cs with
  | [], rest => Option.some rest
  | _ :: _, [] => Option.none
  | a :: la, c :: rest => if c = a then litAt la rest else Option.none

/-- Match a literal case-insensitively (the `/i` flag) at the head. -/
def litAtCI (lit : List Char) (cs : List Char) : Option (List Char) :=
  match lit, cs with
  | [], rest => Option.some rest
  | _ :: _, [] => Option.none
  | a :: la, c :: rest =>
    if Char.toLower c = Char.toLower a then litAtCI la rest else Option.none

/-- `(\d+)\s*<word>` at the head, case-sensitive, returning the digit
capture and the rest after the word. -/
def numThenCS (word : List Char) (cs : List Char) : Option (String × List Char) :=
  let d := cs.takeWhile Char.isDigit
  if d.isEmpty then Option.none
  else
    match litAt word ((cs.dropWhile Char.isDigit).dropWhile isSpaceJs) with
    | Option.some rest => Option.some (⟨d⟩, rest)
    | Option.none => Option.none

/-- `(\d+)\s*<word>` at the head, case-insensitive. -/
def numThenCI (word : List Char) (cs : List Char) : Option (String × List Char) :=
  let d := cs.takeWhile Char.isDigit
  if d.isEmpty then Option.none
  else
    match litAtCI word ((cs.dropWhile Char.isDigit).dropWhile isSpaceJs) with
    | Option.some rest => Option.some (⟨d⟩, rest)
    | Option.none => Option.none

/-- An optional `(?:,\s*(\d+)\s*<word>)?` group (case-insensitive): on
failure the position is unchanged and the capture is `none` (JS
`undefined`). -/
def optNum (word : List Char) (cs : List Char) : Option String × List Char :=
  match cs with
  | ',' :: rest =>
    (match numThenCI word (rest.dropWhile isSpaceJs) with
     | Option.some (d, rest2) => (Option.some d, rest2)
     | Option.none => (Option.none, cs))
  | _ => (Option.none, cs)

/-- `/test result:\s*(\w+)\.\s*(\d+)\s*passed;\s*(\d+)\s*failed;/` at the
head: captures (status word, passed count, failed count). -/
def p1At (cs : List Char) : Option (String × String × String) :=
  match litAt "test result:".data cs with
  | Option.none => Option.none
  | Option.some cs1 =>
    let cs2 := cs1.dropWhile isSpaceJs
    let w := cs2.takeWhile isWordChar
    if w.isEmpty then Option.none
    else
      match cs2.dropWhile isWordChar with
      | '.' :: cs3 =>
        (match numThenCS "passed;".data (cs3.dropWhile isSpaceJs) with
         | Option.none => Option.none
         | Option.some (d1, cs4) =>
           match numThenCS "failed;".data (cs4.dropWhile isSpaceJs) with
           | Option.none => Option.none
           | Option.some (d2, _) => Option.some (⟨w⟩, d1, d2))
      | _ => Option.none

/-- `/(\d+)\s*passed(?:,\s*(\d+)\s*failed)?(?:,\s*(\d+)\s*skipped)?/i` at
the head. -/
def p2At (cs : List Char) : Option (String × Option String × Option String) :=
  match numThenCI "passed".data cs with
  | Option.none => Option.none
  | Option.some (d1, cs2) =>
    let r2 := optNum "failed".data cs2
    let r3 := optNum "skipped".data r2.2
    Option.some (d1, r2.1, r3.1)

/-- `/(\d+)\s*pass(?:,\s*(\d+)\s*fail)?(?:,\s*(\d+)\s*skip)?/i` at the
head. -/
def p3At (cs : List Char) : Option (String × Option String × Option String) :=
  match numThenCI "pass".data cs with
  | Option.none => Option.none
  | Option.some (d1, cs2) =>
    let r2 := optNum "fail".data cs2
    let r3 := optNum "skip".data r2.2
    Option.some (d1, r2.1, r3.1)

/-- `/tests?:\s*(\d+)\s*passed(?:,\s*(\d+)\s*failed)?(?:,\s*(\d+)\s*skipped)?/i`
at the head. -/
def p4At (cs : List Char) : Option (String × Option String × Option String) :=
  match litAtCI "test".data cs with
  | Option.none => Option.none
  | Option.some cs1 =>
    let afterColon : Option (List Char) :=
      match cs1 with
      | c :: rest2 =>
        if Char.toLower c = 's' then
          match rest2 with
          | ':' :: rest3 => Option.some rest3
          | _ => (match cs1 with | ':' :: r => Option.some r | _ => Option.none)
        else
          (match cs1 with | ':' :: r => Option.some r | _ => Option.none)
      | [] => Option.none
    match afterColon with
    | Option.none => Option.none
    | Option.some cs2 =>
      match numThenCI "passed".data (cs2.dropWhile isSpaceJs) with
      | Option.none => Option.none
      | Option.some (d1, cs3) =>
        let r2 := optNum "failed".data cs3
        let r3 := optNum "skipped".data r2.2
        Option.some (d1, r2.1, r3.1)

/-- Leftmost match: try the per-position matcher at each suffix, left to
right. -/
def scanFirst {α : Type} (f : List Char → Option α) : List Char → Option α
  | [] => Option.none
  | c :: rest =>
    match f (c :: rest) with
    | Option.some r => Option.some r
    | Option.none => scanFirst f rest

/-- `parseInt(g, 10) || 0` for an optional capture group. -/
def parseIntOr0G : Option String → Nat
  | Option.some s => parseIntOr0 s.data
  | Option.none => 0

/-- `extractTestStats(output)`: the ordered pattern table, first match
wins; the triple is `(passed, failed, skipped)` exactly as the source
assigns `match[1]`, `match[2]`, `match[3]` — for the first (Rust) pattern
`match[1]` is the status *word*, so the captured pass count lands in
`failed` and the captured fail count in `skipped`. -/
def extractTestStats (output : String) : Option (Nat × Nat × Nat) :=
  match scanFirst p1At output.data with
  | Option.some (w, d1, d2) =>
    Option.some (parseIntOr0 w.data, parseIntOr0 d1.data, parseIntOr0 d2.data)
  | Option.none =>
    match scanFirst p2At output.data with
    | Option.some (d1, g2, g3) =>
      Option.some (parseIntOr0 d1.data, parseIntOr0G g2, parseIntOr0G g3)
    | Option.none =>
      match scanFirst p3At output.data with
      | Option.some (d1, g2, g3) =>
        Option.some (parseIntOr0 d1.data, parseIntOr0G g2, parseIntOr0G g3)
      | Option.none =>
        match scanFirst p4At output.data with
        | Option.some (d1, g2, g3) =>
          Option.some (parseIntOr0 d1.data, parseIntOr0G g2, parseIntOr0G g3)
        | Option.none => Option.none

def isWordOpt : Option Char → Bool
  | Option.some c => isWordChar c
  | Option.none => false

/-- A `\b` word boundary sits between two positions exactly when one side
is a word character and the other is not (string ends count as
non-word). -/
def wordBoundary (a b : Option Char) : Bool := isWordOpt a != isWordOpt b

/-- One alternative of `/\b(w1|w2|...)\b/` matching at the current
position, `prev` being the character just before it. -/
def markerAt (w : List Char) (prev : Option Char) (cs : List Char) : Bool :=
  match litAt w cs with
  | Option.some after =>
    wordBoundary prev (Option.some (w.headD ' ')) &&
      wordBoundary (Option.some (w.getLastD ' ')) after.head?
  | Option.none => false

/-- `re.test(line)` for `/\b(w1|w2|...)\b/`: some alternative matches at
some position. -/
def hasWordMarker (ws : List (List Char)) : Option Char → List Char → Bool
  | _, [] => false
  | prev, c :: rest =>
    ws.any (fun w => markerAt w prev (c :: rest)) || hasWordMarker ws (Option.some c) rest

/-- `/\b(ok|PASS|✓|✔)\b/.test(line)`. -/
def lineHasPassMarker (line : String) : Bool :=
  hasWordMarker ["ok".data, "PASS".data, "✓".data, "✔".data] Option.none line.data

/-- `/\b(FAIL|fail|✗|✕)\b/.test(line)`. -/
def lineHasFailMarker (line : String) : Bool :=
  hasWordMarker ["FAIL".data, "fail".data, "✗".data, "✕".data] Option.none line.data

/-- `/^<word>\s+/.test(line)`: the word at the start followed by at least
one whitespace character. -/
def startsFailSp (word : List Char) (cs : List Char) : Bool :=
  match litAt word cs with
  | Option.some (c :: _) => isSpaceJs c
  | _ => false

/-- `/^\s*<mark>\s+/.test(line)`. -/
def bulletStart (mark : Char) (cs : List Char) : Bool :=
  match cs.dropWhile isSpaceJs with
  | c :: c2 :: _ => c = mark && isSpaceJs c2
  | _ => false

/-- `/test\s+\w+\s+\.\.\.\s*FAILED/` at the current position. -/
def goFailAt (cs : List Char) : Bool :=
  match litAt "test".data cs with
  | Option.none => false
  | Option.some cs1 =>
    if (cs1.takeWhile isSpaceJs).isEmpty then false
    else
      let cs2 := cs1.dropWhile isSpaceJs
      if (cs2.takeWhile isWordChar).isEmpty then false
      else
        let cs3 := cs2.dropWhile isWordChar
        if (cs3.takeWhile isSpaceJs).isEmpty then false
        else
          match litAt "...".data (cs3.dropWhile isSpaceJs) with
          | Option.some cs4 => (litAt "FAILED".data (cs4.dropWhile isSpaceJs)).isSome
          | Option.none => false

/-- `/thread\s+'\w+'\s+panicked/` at the current position. -/
def rustPanicAt (cs : List Char) : Bool :=
  match litAt "thread".data cs with
  | Option.none => false
  | Option.some cs1 =>
    if (cs1.takeWhile isSpaceJs).isEmpty then false
    else
      match cs1.dropWhile isSpaceJs with
      | '\'' :: cs2 =>
        if (cs2.takeWhile isWordChar).isEmpty then false
        else
          match cs2.dropWhile isWordChar with
          | '\'' :: cs3 =>
            if (cs3.takeWhile isSpaceJs).isEmpty then false
            else (litAt "panicked".data (cs3.dropWhile isSpaceJs)).isSome
          | _ => false
      | _ => false

/-- `re.test` for an unanchored pattern: match at some position. -/
def scanAnyPos (f : List Char → Bool) : List Char → Bool
  | [] => false
  | c :: rest => f (c :: rest) || scanAnyPos f rest

/-- `isFailureStart(line)`: some pattern of `FAILURE_START_PATTERNS`
matches. -/
def isFailureStart (line : String) : Bool :=
  startsFailSp "FAIL".data line.data ||
  startsFailSp "FAILED".data line.data ||
  bulletStart '●' line.data ||
  bulletStart '✕' line.data ||
  scanAnyPos goFailAt line.data ||
  scanAnyPos rustPanicAt line.data

/-- Mutable state of the failure-block loop in `aggregateTestOutput`. -/
structure FailScanState where
  inFailure : Bool
  currentFailure : List String
  blankCount : Nat
  failures : List String
deriving DecidableEq

/-- One iteration of the failure-block loop (source lines 104–136): a
failure-start line flushes any open block and opens a new one; inside a
block, a blank line either terminates it (second consecutive blank with
more than 3 collected lines) or is kept; an indented or `-`-led line is
kept; any other line terminates the block. -/
def failScanStep (st : FailScanState) (line : String) : FailScanState :=
  if isFailureStart line then
    { inFailure := true
      currentFailure := [line]
      blankCount := 0
      failures :=
        if st.inFailure ∧ st.currentFailure.length > 0 then
          st.failures ++ [String.intercalate "\n" st.currentFailure]
        else st.failures }
  else if st.inFailure then
    if jsTrim line = "" then
      if st.blankCount + 1 ≥ 2 ∧ st.currentFailure.length > 3 then
        { inFailure := false
          currentFailure := []
          blankCount := st.blankCount + 1
          failures := st.failures ++ [String.intercalate "\n" st.currentFailure] }
      else
        { st with blankCount := st.blankCount + 1
                  currentFailure := st.currentFailure ++ [line] }
    else if line.data.head?.elim false (fun c => isSpaceJs c || c = '-') then
      { st with currentFailure := st.currentFailure ++ [line], blankCount := 0 }
    else
      { inFailure := false
        currentFailure := []
        blankCount := st.blankCount
        failures := st.failures ++ [String.intercalate "\n" st.currentFailure] }
  else st

/-- The failure-block loop over all lines, with the end-of-input flush. -/
def extractFailureBlocks (lines : List String) : List String :=
  let st := lines.foldl failScanStep
    { inFailure := false, currentFailure := [], blankCount := 0, failures := [] }
  if st.inFailure ∧ st.currentFailure.length > 0 then
    st.failures ++ [String.intercalate "\n" st.currentFailure]
  else st.failures

/-- One continuation line of a rendered failure block (kept only when its
trim is non-empty, capped at 65 characters with an ellipsis). -/
def renderContinuationLine (line : String) : List String :=
  if jsTrim line ≠ "" then
    ["     " ++ jsSlice line 65 ++ (if line.length > 65 then "..." else "")]
  else []

/-- Rendering of one failure block: bulleted first line capped at 70
characters, up to 3 continuation lines, and a `more lines` marker. -/
def renderFailure (failure : String) : List String :=
  let ls := jsSplitNl failure
  let firstLine := ls.headD ""
  ["   • " ++ jsSlice firstLine 70 ++ (if firstLine.length > 70 then "..." else "")]
    ++ (((ls.drop 1).take 3).map renderContinuationLine).flatten
    ++ (if ls.length > 4 then
          ["     ... (" ++ toString (ls.length - 4) ++ " more lines)"]
        else [])

/-- The result builder of `aggregateTestOutput` (source lines 144–173). -/
def buildTestResult (passed failed skipped : Nat) (failures : List String) : String :=
  let result :=
    ["📋 Test Results:", "   ✅ " ++ toString passed ++ " passed"]
      ++ (if failed > 0 then ["   ❌ " ++ toString failed ++ " failed"] else [])
      ++ (if skipped > 0 then ["   ⏭️  " ++ toString skipped ++ " skipped"] else [])
      ++ (if failed > 0 ∧ failures.length > 0 then
            ["\n   Failures:"]
              ++ ((failures.take 5).map renderFailure).flatten
              ++ (if failures.length > 5 then
                    ["   ... and " ++ toString (failures.length - 5) ++ " more failures"]
                  else [])
          else [])
  String.intercalate "\n" result

/-- `summary.passed/failed/skipped` after the `extractTestStats` step:
each `stats.<field> || 0` is the component when a pattern matched, else
`0`. -/
def testStatsOf (output : String) : Nat × Nat × Nat :=
  match extractTestStats output with
  | Option.some s => s
  | Option.none => (0, 0, 0)

/-- The fallback counting loop (source lines 90–96): when both extracted
counts are zero, count pass-marker and fail-marker lines. -/
def fallbackCounts (lines : List String) (p f : Nat) : Nat × Nat :=
  if p = 0 ∧ f = 0 then
    lines.foldl
      (fun pf line =>
        (pf.1 + (if lineHasPassMarker line then 1 else 0),
         pf.2 + (if lineHasFailMarker line then 1 else 0)))
      (p, f)
  else (p, f)

/-- `aggregateTestOutput(output, command)`: `null` for a non-test command;
otherwise stats extraction, fallback counting, failure-block extraction
(only when failures were counted), and the rendered summary. -/
def aggregateTestOutput (output command : String) : Option String :=
  if isTestCommand command then
    let lines := jsSplitNl output
    let stats := testStatsOf output
    let pf := fallbackCounts lines stats.1 stats.2.1
    let failures := if pf.2 > 0 then extractFailureBlocks lines else []
    Option.some (buildTestResult pf.1 pf.2 stats.2.2 failures)
  else Option.none

end RTK

namespace RTK

/-! ## Claim C4 — the Rust result-line mapping -/

/-- C4 counterexample: the claim quantifies over every output *containing*
the line `test result: FAILED. 5 passed; 2 failed; 0 ignored`.  An output
whose first pattern match is an earlier result line reports that line's
counts instead: here the summary says `3 failed` and nowhere `5 failed`,
although the output contains the quoted line verbatim. -/
theorem aggregateTestOutput_contains_cex :
    isTestCommand "cargo test" = true ∧
    jsIncludes
      "test result: ok. 3 passed; 1 failed;\ntest result: FAILED. 5 passed; 2 failed; 0 ignored"
      "test result: FAILED. 5 passed; 2 failed; 0 ignored" = true ∧
    aggregateTestOutput
      "test result: ok. 3 passed; 1 failed;\ntest result: FAILED. 5 passed; 2 failed; 0 ignored"
      "cargo test" =
      Option.some "📋 Test Results:\n   ✅ 0 passed\n   ❌ 3 failed\n   ⏭️  1 skipped" ∧
    jsIncludes "📋 Test Results:\n   ✅ 0 passed\n   ❌ 3 failed\n   ⏭️  1 skipped"
      "5 failed" = false := by
  refine ⟨by decide, by decide, by decide, by decide⟩

/-- C4 amended: for every test-runner command, aggregating the output
consisting of the line `test result: FAILED. 5 passed; 2 failed; 0 ignored`
(more generally, any output on which that line is the first result-pattern
match) yields a summary containing `5 failed`: the first pattern captures
(status word, passed, failed) but the extractor maps `match[1]` (the word
`FAILED`, parsed as 0) to the pass count, the captured pass count 5 to the
fail count, and the captured fail count 2 to the skip count. -/
theorem aggregateTestOutput_rust_failed_line (command : String)
    (hcmd : isTestCommand command = true) :
    aggregateTestOutput "test result: FAILED. 5 passed; 2 failed; 0 ignored" command =
      Option.some "📋 Test Results:\n   ✅ 0 passed\n   ❌ 5 failed\n   ⏭️  2 skipped" ∧
    extractTestStats "test result: FAILED. 5 passed; 2 failed; 0 ignored" =
      Option.some (0, 5, 2) ∧
    jsIncludes "📋 Test Results:\n   ✅ 0 passed\n   ❌ 5 failed\n   ⏭️  2 skipped"
      "5 failed" = true := by
  refine ⟨?_, by decide, by decide⟩
  rw [aggregateTestOutput, if_pos hcmd]
  decide

/-- Witness for `aggregateTestOutput_rust_failed_line` at the concrete
command `cargo test`. -/
theorem aggregateTestOutput_rust_failed_line_witness :
    aggregateTestOutput "test result: FAILED. 5 passed; 2 failed; 0 ignored" "cargo test" =
      Option.some "📋 Test Results:\n   ✅ 0 passed\n   ❌ 5 failed\n   ⏭️  2 skipped" :=
  (aggregateTestOutput_rust_failed_line "cargo test" (by decide)).1

/-! ## Claim C10 — unparseable test output never passes through -/

/-- Marker-free lines leave the fallback counters at zero. -/
theorem fallback_fold_zero (lines : List String)
    (h : ∀ line ∈ lines,
      lineHasPassMarker line = false ∧ lineHasFailMarker line = false) :
    lines.foldl
      (fun pf line =>
        (pf.1 + (if lineHasPassMarker line then 1 else 0),
         pf.2 + (if lineHasFailMarker line then 1 else 0)))
      ((0 : Nat), (0 : Nat)) = (0, 0) := by
  induction lines with
  | nil => rfl
  | cons l rest ih =>
    have hl := h l (List.mem_cons_self l rest)
    rw [List.foldl_cons]
    simp only [hl.1, hl.2, Bool.false_eq_true, if_false, Nat.add_zero]
    exact ih (fun x hx => h x (List.mem_cons_of_mem l hx))

/-- C10: for every command recognized as a test command the aggregator
returns a summary for *every* output — and when no result template matches
and no line carries a pass/fail marker, the output is replaced wholesale
by the summary `📋 Test Results:\n   ✅ 0 passed`, which can never equal
the (unparseable) input, since the summary itself matches the second
result template while the input matches none. -/
theorem aggregateTestOutput_always_summarizes (output command : String)
    (hcmd : isTestCommand command = true)
    (hstats : extractTestStats output = Option.none)
    (hmark : ∀ line ∈ jsSplitNl output,
      lineHasPassMarker line = false ∧ lineHasFailMarker line = false) :
    aggregateTestOutput output command = Option.some "📋 Test Results:\n   ✅ 0 passed" ∧
    output ≠ "📋 Test Results:\n   ✅ 0 passed" ∧
    (∀ out2 : String, (aggregateTestOutput out2 command).isSome = true) := by
  have hts : testStatsOf output = (0, 0, 0) := by
    rw [testStatsOf, hstats]
  have hfb : fallbackCounts (jsSplitNl output) 0 0 = (0, 0) := by
    rw [fallbackCounts, if_pos ⟨rfl, rfl⟩]
    exact fallback_fold_zero (jsSplitNl output) hmark
  refine ⟨?_, ?_, ?_⟩
  · simp only [aggregateTestOutput, hcmd, if_true, hts, hfb]
    rfl
  · intro heq
    rw [heq] at hstats
    exact absurd hstats (by decide)
  · intro out2
    rw [aggregateTestOutput, if_pos hcmd]
    rfl

/-- Witness for `aggregateTestOutput_always_summarizes` on a concrete
unparseable output. -/
theorem aggregateTestOutput_always_summarizes_witness :
    aggregateTestOutput "hello" "cargo test" =
      Option.some "📋 Test Results:\n   ✅ 0 passed" ∧
    "hello" ≠ "📋 Test Results:\n   ✅ 0 passed" ∧
    (aggregateTestOutput "zzz" "cargo test").isSome = true :=
  ⟨(aggregateTestOutput_always_summarizes "hello" "cargo test"
      (by decide) (by decide) (by decide)).1,
   (aggregateTestOutput_always_summarizes "hello" "cargo test"
      (by decide) (by decide) (by decide)).2.1,
   (aggregateTestOutput_always_summarizes "hello" "cargo test"
      (by decide) (by decide) (by decide)).2.2 "zzz"⟩

end RTK
